import Mathlib

/-!
# Verification of `gossip_check.py`

A shallow embedding of the gossip-node compliance scanner: a linear pipeline
that fetches a peer directory, samples it, geolocates the sampled hosts in
batches, classifies each peer against a fixed sanctioned-country set, and
writes a cumulative CSV log plus a summary.

Network calls are modelled by explicit outcome parameters (one parameter per
call site), Python dicts by insertion-ordered association lists with
last-write-wins update, `collections.Counter` by an insertion-ordered tally
list, and `Counter.most_common()` by a stable insertion sort descending on
counts.  `random.sample` is external library code; its documented contract
(exactly `k` elements drawn without replacement) appears as a hypothesis on
the sampling theorems.
-/

namespace GossipCheck

/-- A peer record as returned by the directory (`getClusterNodes`): the fields
the program reads.  `none` models an absent key / JSON null. -/
structure Node where
  pubkey : Option String
  gossip : Option String
  version : Option String
deriving DecidableEq, Repr

/-- `SAMPLE_SIZE = 150` (gossip_check.py line 15). -/
def SAMPLE_SIZE : Nat := 150

/-- `OFAC_COUNTRIES` (gossip_check.py line 20), as a duplicate-free list. -/
def OFAC_COUNTRIES : List String := ["IR", "KP", "CU", "SY", "RU", "BY", "VE", "MM"]

/-- Python truthiness of `n.get('gossip')`: the key is present and the string
is non-empty. -/
def gossipTruthy (n : Node) : Bool :=
  match n.gossip with
  | some s => s != ""
  | none => false

/-- `valid_nodes = [n for n in nodes if n.get('gossip')]` (line 72). -/
def validNodes (nodes : List Node) : List Node :=
  nodes.filter gossipTruthy

/-- Modelled from the spec and the Python library documentation of
`random.sample(population, k)`, which is external library code: the result has
exactly `k` elements, each drawn from the population with no repeats, i.e. it
is a permutation of a sublist of the population. -/
def sampleSpec (population : List Node) (k : Nat) (s : List Node) : Prop :=
  s.length = k ∧ s.Subperm population

/-- Lines 76-79: `sampled_nodes = random.sample(valid_nodes, SAMPLE_SIZE)` when
`len(valid_nodes) > SAMPLE_SIZE`, else `valid_nodes`.  The random draw is the
`choice` parameter. -/
def sampledNodes (valid : List Node) (choice : List Node) : List Node :=
  if SAMPLE_SIZE < valid.length then choice else valid

/-- The characters before the first `':'`; the whole list when there is no
colon. -/
def hostChars : List Char → List Char
  | [] => []
  | c :: rest => if c = ':' then [] else c :: hostChars rest

/-- `gossip_addr.split(':')[0]` (line 91): the substring before the first
colon; the whole string when there is no colon. -/
def hostOf (s : String) : String :=
  ⟨hostChars s.data⟩

/-- Python dict assignment `d[k] = v`: overwrite the value in place when the
key is present (keeping its original position), otherwise append at the end. -/
def dictInsert {β : Type} (k : String) (v : β) : List (String × β) → List (String × β)
  | [] => [(k, v)]
  | (k₁, v₁) :: rest => if k = k₁ then (k, v) :: rest else (k₁, v₁) :: dictInsert k v rest

/-- Python `d.get(k, default)`. -/
def lookupD {β : Type} (d : List (String × β)) (k : String) (default : β) : β :=
  (d.lookup k).getD default

/-- The host key a node contributes inside the extraction loop (lines 88-93):
`some h` when the gossip address is truthy, `none` otherwise. -/
def hostKey (n : Node) : Option String :=
  match n.gossip with
  | some g => if g != "" then some (hostOf g) else none
  | none => none

/-- One iteration of the extraction loop (lines 88-93): when the gossip
address is truthy, append the host to `ip_list` and assign `node_map[ip]`. -/
def extractStep (acc : List String × List (String × Node)) (n : Node) :
    List String × List (String × Node) :=
  match hostKey n with
  | some h => (acc.1 ++ [h], dictInsert h n acc.2)
  | none => acc

/-- Lines 85-93: one pass over the sampled nodes building `ip_list` (every
extracted host, in order, duplicates kept) and `node_map` (host → node,
last write wins). -/
def buildNodeMap (sampled : List Node) : List String × List (String × Node) :=
  sampled.foldl extractStep ([], [])

/-- A geolocation result as consumed by `main` (lines 104-106). -/
structure Location where
  code : String
  name : String
deriving DecidableEq, Repr

/-- One item of a geolocation batch reply; `none` models an absent key, read
through `item.get(..., 'Unknown')` (lines 59-62). -/
structure GeoItem where
  query : String
  country : Option String
  countryCode : Option String
deriving DecidableEq, Repr

/-- Lines 59-62: build the stored location from a reply item. -/
def locOfItem (item : GeoItem) : Location :=
  { code := item.countryCode.getD "Unknown", name := item.country.getD "Unknown" }

/-- `ips[i:i+k]` chunking of line 49-50, with the list length as fuel. -/
def chunksOfAux {α : Type} (k : Nat) : Nat → List α → List (List α)
  | 0, _ => []
  | _, [] => []
  | fuel + 1, l => l.take k :: chunksOfAux k fuel (l.drop k)

/-- `for i in range(0, len(ips), chunk_size): chunk = ips[i:i + chunk_size]`
(lines 49-50) as the list of successive chunks. -/
def chunksOf {α : Type} (k : Nat) (l : List α) : List (List α) :=
  chunksOfAux k l.length l

/-- The loop body of `get_ip_country_batch` over the chunks (lines 49-64):
`respond i` is the outcome of the single batch request for chunk number `i` —
`none` when the request raised (transport error, malformed response), in which
case the chunk is skipped and the loop continues with the next chunk. -/
def runChunks (respond : Nat → Option (List GeoItem)) :
    Nat → List (List String) → List (String × Location) → List (String × Location)
  | _, [], results => results
  | i, _ :: rest, results =>
      runChunks respond (i + 1) rest
        (match respond i with
         | none => results
         | some items =>
             items.foldl (fun r it => dictInsert it.query (locOfItem it) r) results)

/-- `get_ip_country_batch(ips)` (lines 41-65), parameterised by the per-chunk
request outcomes. -/
def get_ip_country_batch (respond : Nat → Option (List GeoItem))
    (ips : List String) : List (String × Location) :=
  runChunks respond 0 (chunksOf 100 ips) []

/-- Outcome of the single `requests.post` in `get_gossip_nodes`: `failure` is
any raised exception (transport error, timeout, non-success status, JSON
decode error); `success body` is a parsed JSON body whose optional `result`
field is the node list. -/
inductive RpcOutcome where
  | failure
  | success (result : Option (List Node))
deriving DecidableEq, Repr

/-- `get_gossip_nodes()` (lines 22-39): one request; `[]` on failure and on a
body without a `result` key, the `result` array otherwise. -/
def get_gossip_nodes : RpcOutcome → List Node
  | .failure => []
  | .success none => []
  | .success (some r) => r

/-- One output row (lines 114-122).  The timestamp is the wall-clock string
captured at classification time, passed in as a parameter of the run. -/
structure ScanRow where
  timestamp : String
  pubkey : Option String
  gossip_ip : String
  version : Option String
  country_code : String
  country_name : String
  is_ofac_sanctioned : Bool
deriving DecidableEq, Repr

/-- `country_counter[country_code] += 1` on a `collections.Counter` (line
112): bump the count in place when the key is present, else append the key
with count 1 (Counter preserves first-insertion order). -/
def countIncr (c : String) : List (String × Nat) → List (String × Nat)
  | [] => [(c, 1)]
  | (c₁, n) :: rest => if c = c₁ then (c₁, n + 1) :: rest else (c₁, n) :: countIncr c rest

/-- The accumulator of the processing loop (lines 99-101): `processed_data`,
`country_counter`, `sanctioned_count`. -/
structure ProcessState where
  processed : List ScanRow
  counter : List (String × Nat)
  sanctioned : Nat
deriving DecidableEq, Repr

/-- The default of `geo_data.get(ip, {'code': 'XX', 'name': 'Unknown'})`
(line 104): the unknown sentinel. -/
def unknownLocation : Location := ⟨"XX", "Unknown"⟩

/-- The row built for one `node_map` entry (lines 104-122). -/
def rowOf (ts : String) (geo : List (String × Location)) (e : String × Node) : ScanRow :=
  let location := lookupD geo e.1 unknownLocation
  { timestamp := ts
    pubkey := e.2.pubkey
    gossip_ip := e.1
    version := e.2.version
    country_code := location.code
    country_name := location.name
    is_ofac_sanctioned := OFAC_COUNTRIES.contains location.code }

/-- The body of the processing loop `for ip, node in node_map.items()`
(lines 103-122), as a tail recursion over the remaining entries carrying the
accumulated state. -/
def processFrom (ts : String) (geo : List (String × Location)) :
    ProcessState → List (String × Node) → ProcessState
  | st, [] => st
  | st, e :: rest =>
      let row := rowOf ts geo e
      processFrom ts geo
        { processed := st.processed ++ [row]
          counter := countIncr row.country_code st.counter
          sanctioned := st.sanctioned + (if row.is_ofac_sanctioned then 1 else 0) }
        rest

/-- Lines 98-122: the whole processing loop from the empty state. -/
def processData (ts : String) (nodeMap : List (String × Node))
    (geo : List (String × Location)) : ProcessState :=
  processFrom ts geo ⟨[], [], 0⟩ nodeMap

/-- Line 142: `(sanctioned_count / total_fetched * 100) if total_fetched > 0
else 0`, over exact rationals. -/
def non_compliance_pct (sanctioned total : Nat) : Rat :=
  if 0 < total then (sanctioned : Rat) / (total : Rat) * 100 else 0

/-- The `:.2f` display of the percentage (line 150): rounding to two decimal
places. -/
def round2 (q : Rat) : Rat :=
  ((⌊q * 100 + 1 / 2⌋ : Int) : Rat) / 100

/-- Line 158: the `Other` sanity figure
`total_fetched - sum(country_counter.values())`, a Python int (may in
principle be negative, hence `Int`). -/
def otherLine (total : Nat) (counter : List (String × Nat)) : Int :=
  (total : Int) - ((counter.map Prod.snd).sum : Nat)

/-- Stable insert for a descending sort on counts: skip entries with a
strictly larger count, place before the first entry with a smaller-or-equal
count. -/
def insertDesc (p : String × Nat) : List (String × Nat) → List (String × Nat)
  | [] => [p]
  | q :: rest => if p.2 < q.2 then q :: insertDesc p rest else p :: q :: rest

/-- `Counter.most_common()` with no argument (line 163): the tally items
sorted by descending count with a stable sort, so entries with equal counts
keep their insertion (first-encounter) order. -/
def mostCommon : List (String × Nat) → List (String × Nat)
  | [] => []
  | p :: rest => insertDesc p (mostCommon rest)

/-- The order in which country codes are first encountered while tallying:
the key order of a `Counter` fed the codes one at a time. -/
def firstOccurrencesFrom (seen : List String) : List String → List String
  | [] => seen
  | c :: cs => firstOccurrencesFrom (if c ∈ seen then seen else seen ++ [c]) cs

/-- First-encounter order of a list of codes. -/
def firstOccurrences (codes : List String) : List String :=
  firstOccurrencesFrom [] codes

/-- The fixed CSV header (line 132). -/
def csvHeader : List String :=
  ["timestamp", "pubkey", "gossip_ip", "version", "country_code", "country_name",
   "is_ofac_sanctioned"]

/-- How `csv.DictWriter` renders an optional string field: `None` becomes the
empty string. -/
def optStr : Option String → String
  | some s => s
  | none => ""

/-- How `csv.DictWriter` renders a Python bool: `str(True) = "True"`. -/
def boolStr : Bool → String
  | true => "True"
  | false => "False"

/-- One CSV data row in the fixed `fieldnames` column order (lines 132-136). -/
def toCsvRow (r : ScanRow) : List String :=
  [r.timestamp, optStr r.pubkey, r.gossip_ip, optStr r.version, r.country_code,
   r.country_name, boolStr r.is_ofac_sanctioned]

/-- Lines 127-136: the CSV file after one run, as a list of rows.  `existing`
is the file content before the run (`none` when `os.path.isfile` was false):
append mode keeps it, the header is written only when the file did not exist,
then one row per ScanRow. -/
def writeCsv (existing : Option (List (List String))) (rows : List ScanRow) :
    List (List String) :=
  existing.getD [] ++ (if existing.isSome then [] else [csvHeader]) ++ rows.map toCsvRow

/-! Characterisations used by the proofs. -/

/-- The country code the processing loop resolves for one `node_map` entry. -/
def codeOf (geo : List (String × Location)) (e : String × Node) : String :=
  (lookupD geo e.1 unknownLocation).code

/-- Folding a list of codes into a tally, starting from `init`. -/
def tallyFrom (init : List (String × Nat)) (codes : List String) : List (String × Nat) :=
  codes.foldl (fun acc c => countIncr c acc) init

/-- The last sampled node whose extracted host is `h`, if any. -/
def lastHost (sampled : List Node) (h : String) : Option Node :=
  (sampled.filter (fun n => hostKey n == some h)).getLast?

/-! The concrete end-to-end scenario of the spec: three peers whose hosts
geolocate to US, RU and an item with no country fields. -/

/-- The three directory peers of the end-to-end example. -/
def exampleNodes : List Node :=
  [⟨some "pk1", some "1.1.1.1:8001", some "1.18.0"⟩,
   ⟨some "pk2", some "2.2.2.2:8001", some "1.18.0"⟩,
   ⟨some "pk3", some "3.3.3.3:8001", some "1.18.0"⟩]

/-- The geolocation reply of the end-to-end example: one successful batch
resolving the three hosts to US, RU, and a reply with no country fields. -/
def exampleRespond : Nat → Option (List GeoItem)
  | 0 => some [⟨"1.1.1.1", some "United States", some "US"⟩,
               ⟨"2.2.2.2", some "Russia", some "RU"⟩,
               ⟨"3.3.3.3", none, none⟩]
  | _ => none

/-- Sampling step of the example (3 ≤ 150, so the random draw is unused). -/
def exampleSampled : List Node := sampledNodes (validNodes exampleNodes) []

/-- Host list and node map of the example. -/
def exampleBm : List String × List (String × Node) := buildNodeMap exampleSampled

/-- Geolocation result of the example. -/
def exampleGeo : List (String × Location) := get_ip_country_batch exampleRespond exampleBm.1

/-- The processing-loop output of the example. -/
def exampleRun : ProcessState := processData "t0" exampleBm.2 exampleGeo

/-! ## Lemmas about the dictionary and counter operations -/

theorem lookup_cons_if {β : Type} (k₂ k₁ : String) (v₁ : β) (rest : List (String × β)) :
    ((k₁, v₁) :: rest).lookup k₂ = if k₂ = k₁ then some v₁ else rest.lookup k₂ := by
  by_cases h : k₂ = k₁
  · subst h; simp [List.lookup]
  · simp [List.lookup, h, beq_false_of_ne h]

theorem dictInsert_lookup {β : Type} (k k₂ : String) (v : β) (l : List (String × β)) :
    (dictInsert k v l).lookup k₂ = if k₂ = k then some v else l.lookup k₂ := by
  induction l with
  | nil => simp [dictInsert, lookup_cons_if]
  | cons p rest ih =>
      obtain ⟨k₁, v₁⟩ := p
      by_cases hk : k = k₁
      · subst hk
        by_cases h : k₂ = k <;> simp [dictInsert, lookup_cons_if, h]
      · by_cases h1 : k₂ = k₁ <;> by_cases h2 : k₂ = k <;>
          simp_all [dictInsert, lookup_cons_if]

theorem dictInsert_keys {β : Type} (k : String) (v : β) (l : List (String × β)) :
    (dictInsert k v l).map Prod.fst =
      if k ∈ l.map Prod.fst then l.map Prod.fst else l.map Prod.fst ++ [k] := by
  induction l with
  | nil => simp [dictInsert]
  | cons p rest ih =>
      obtain ⟨k₁, v₁⟩ := p
      by_cases hk : k = k₁
      · subst hk; simp [dictInsert]
      · by_cases hm : k ∈ rest.map Prod.fst <;>
          simp [dictInsert, hk, Ne.symm hk, hm, ih]

theorem dictInsert_keys_nodup {β : Type} (k : String) (v : β) (l : List (String × β))
    (h : (l.map Prod.fst).Nodup) : ((dictInsert k v l).map Prod.fst).Nodup := by
  rw [dictInsert_keys]
  by_cases hm : k ∈ l.map Prod.fst
  · simpa [hm] using h
  · simp only [hm, if_false]
    exact (List.nodup_append.2 ⟨h, List.nodup_singleton k, by simpa using hm⟩)

theorem countIncr_lookup (c c₂ : String) (l : List (String × Nat)) :
    (countIncr c l).lookup c₂ =
      if c₂ = c then some ((l.lookup c).getD 0 + 1) else l.lookup c₂ := by
  induction l with
  | nil => simp [countIncr, lookup_cons_if]
  | cons p rest ih =>
      obtain ⟨c₁, n⟩ := p
      by_cases hk : c = c₁
      · subst hk
        by_cases h : c₂ = c <;> simp [countIncr, lookup_cons_if, h]
      · by_cases h1 : c₂ = c₁ <;> by_cases h2 : c₂ = c <;>
          simp_all [countIncr, lookup_cons_if]

theorem countIncr_keys (c : String) (l : List (String × Nat)) :
    (countIncr c l).map Prod.fst =
      if c ∈ l.map Prod.fst then l.map Prod.fst else l.map Prod.fst ++ [c] := by
  induction l with
  | nil => simp [countIncr]
  | cons p rest ih =>
      obtain ⟨c₁, n⟩ := p
      by_cases hk : c = c₁
      · subst hk; simp [countIncr]
      · by_cases hm : c ∈ rest.map Prod.fst <;>
          simp [countIncr, hk, Ne.symm hk, hm, ih]

theorem countIncr_keys_nodup (c : String) (l : List (String × Nat))
    (h : (l.map Prod.fst).Nodup) : ((countIncr c l).map Prod.fst).Nodup := by
  rw [countIncr_keys]
  by_cases hm : c ∈ l.map Prod.fst
  · simpa [hm] using h
  · simp only [hm, if_false]
    exact (List.nodup_append.2 ⟨h, List.nodup_singleton c, by simpa using hm⟩)

theorem countIncr_sum (c : String) (l : List (String × Nat)) :
    ((countIncr c l).map Prod.snd).sum = ((l.map Prod.snd).sum) + 1 := by
  induction l with
  | nil => simp [countIncr]
  | cons p rest ih =>
      obtain ⟨c₁, n⟩ := p
      by_cases hk : c = c₁
      · subst hk; simp [countIncr]; omega
      · simp [countIncr, hk, ih]; omega

/-! ## Lemmas about the tally -/

theorem tallyFrom_cons (init : List (String × Nat)) (c : String) (codes : List String) :
    tallyFrom init (c :: codes) = tallyFrom (countIncr c init) codes := rfl

theorem tallyFrom_sum (codes : List String) :
    ∀ init : List (String × Nat),
      ((tallyFrom init codes).map Prod.snd).sum = (init.map Prod.snd).sum + codes.length := by
  induction codes with
  | nil => intro init; simp [tallyFrom]
  | cons c codes ih =>
      intro init
      rw [tallyFrom_cons, ih, countIncr_sum]
      simp; omega

theorem tallyFrom_keys (codes : List String) :
    ∀ init : List (String × Nat),
      (tallyFrom init codes).map Prod.fst =
        firstOccurrencesFrom (init.map Prod.fst) codes := by
  induction codes with
  | nil => intro init; simp [tallyFrom, firstOccurrencesFrom]
  | cons c codes ih =>
      intro init
      rw [tallyFrom_cons, ih, firstOccurrencesFrom, countIncr_keys]

theorem tallyFrom_keys_nodup (codes : List String) :
    ∀ init : List (String × Nat), (init.map Prod.fst).Nodup →
      ((tallyFrom init codes).map Prod.fst).Nodup := by
  induction codes with
  | nil => intro init h; simpa [tallyFrom] using h
  | cons c codes ih =>
      intro init h
      rw [tallyFrom_cons]
      exact ih _ (countIncr_keys_nodup c init h)

theorem tallyFrom_lookup (codes : List String) :
    ∀ (init : List (String × Nat)) (c : String),
      (tallyFrom init codes).lookup c =
        if c ∈ codes ∨ (init.lookup c).isSome
        then some ((init.lookup c).getD 0 + codes.count c)
        else none := by
  induction codes with
  | nil =>
      intro init c
      cases h : init.lookup c <;> simp [tallyFrom, h]
  | cons c₀ codes ih =>
      intro init c
      rw [tallyFrom_cons, ih, countIncr_lookup]
      by_cases hc : c = c₀
      · subst hc
        cases h : init.lookup c <;>
          simp [h, List.count_cons, Option.isSome] <;> omega
      · rw [if_neg hc]
        by_cases hm : c ∈ codes <;>
          cases h : init.lookup c <;>
            simp [hm, h, List.count_cons, beq_false_of_ne (Ne.symm hc), hc, Option.isSome]

/-! ## Structure of the processing loop -/

theorem processFrom_spec (ts : String) (geo : List (String × Location))
    (nm : List (String × Node)) :
    ∀ st : ProcessState,
      processFrom ts geo st nm =
        ⟨st.processed ++ nm.map (rowOf ts geo),
         tallyFrom st.counter (nm.map (codeOf geo)),
         st.sanctioned +
           (nm.map (codeOf geo)).countP (fun c => OFAC_COUNTRIES.contains c)⟩ := by
  induction nm with
  | nil => intro st; simp [processFrom, tallyFrom]
  | cons e rest ih =>
      intro st
      rw [processFrom, ih, ProcessState.mk.injEq]
      refine ⟨?_, ?_, ?_⟩
      · simp [rowOf, codeOf]
      · rw [List.map_cons, tallyFrom_cons]
        rfl
      · rw [List.map_cons, List.countP_cons]
        simp only [rowOf, codeOf]
        by_cases hs : OFAC_COUNTRIES.contains (lookupD geo e.1 unknownLocation).code = true <;>
          simp [hs] <;> omega

theorem processData_spec (ts : String) (geo : List (String × Location))
    (nm : List (String × Node)) :
    processData ts nm geo =
      ⟨nm.map (rowOf ts geo),
       tallyFrom [] (nm.map (codeOf geo)),
       (nm.map (codeOf geo)).countP (fun c => OFAC_COUNTRIES.contains c)⟩ := by
  rw [processData, processFrom_spec]
  simp

/-! ## Lemmas about the stable descending sort -/

theorem insertDesc_perm (p : String × Nat) (l : List (String × Nat)) :
    (insertDesc p l).Perm (p :: l) := by
  induction l with
  | nil => simp [insertDesc]
  | cons q rest ih =>
      rw [insertDesc]
      by_cases h : p.2 < q.2
      · rw [if_pos h]
        exact (ih.cons q).trans (List.Perm.swap p q rest)
      · rw [if_neg h]

theorem insertDesc_mem {p x : String × Nat} {l : List (String × Nat)}
    (h : x ∈ insertDesc p l) : x = p ∨ x ∈ l := by
  have := (insertDesc_perm p l).mem_iff.1 h
  simpa using this

theorem insertDesc_sorted (p : String × Nat) (l : List (String × Nat))
    (hl : l.Pairwise (fun a b => b.2 ≤ a.2)) :
    (insertDesc p l).Pairwise (fun a b => b.2 ≤ a.2) := by
  induction l with
  | nil => simp [insertDesc]
  | cons q rest ih =>
      rw [List.pairwise_cons] at hl
      rw [insertDesc]
      by_cases h : p.2 < q.2
      · rw [if_pos h]
        refine List.pairwise_cons.2 ⟨?_, ih hl.2⟩
        intro x hx
        rcases insertDesc_mem hx with rfl | hx
        · omega
        · exact hl.1 x hx
      · rw [if_neg h]
        refine List.pairwise_cons.2 ⟨?_, List.pairwise_cons.2 ⟨hl.1, hl.2⟩⟩
        intro x hx
        rcases List.mem_cons.1 hx with rfl | hx
        · omega
        · have := hl.1 x hx
          omega

theorem mostCommon_perm (l : List (String × Nat)) : (mostCommon l).Perm l := by
  induction l with
  | nil => simp [mostCommon]
  | cons p rest ih =>
      rw [mostCommon]
      exact (insertDesc_perm p (mostCommon rest)).trans (ih.cons p)

theorem mostCommon_sorted (l : List (String × Nat)) :
    (mostCommon l).Pairwise (fun a b => b.2 ≤ a.2) := by
  induction l with
  | nil => simp [mostCommon]
  | cons p rest ih =>
      rw [mostCommon]
      exact insertDesc_sorted p (mostCommon rest) ih

theorem insertDesc_filter (p : String × Nat) (l : List (String × Nat)) (k : Nat)
    (hl : l.Pairwise (fun a b => b.2 ≤ a.2)) :
    (insertDesc p l).filter (fun q => q.2 == k) =
      (p :: l).filter (fun q => q.2 == k) := by
  induction l with
  | nil => simp [insertDesc]
  | cons q rest ih =>
      rw [List.pairwise_cons] at hl
      rw [insertDesc]
      by_cases h : p.2 < q.2
      · rw [if_pos h]
        have hrec := ih hl.2
        by_cases hq : q.2 = k
        · have hp : ¬ p.2 = k := by omega
          simp only [List.filter_cons, hq, hp, beq_self_eq_true, beq_false_of_ne hp]
          simp only [if_true, if_false, hrec, List.filter_cons, beq_false_of_ne hp]
          simp
        · by_cases hp : p.2 = k <;>
            simp_all [List.filter_cons, beq_false_of_ne hq]
      · rw [if_neg h]

theorem mostCommon_filter (l : List (String × Nat)) (k : Nat) :
    (mostCommon l).filter (fun q => q.2 == k) = l.filter (fun q => q.2 == k) := by
  induction l with
  | nil => simp [mostCommon]
  | cons p rest ih =>
      rw [mostCommon, insertDesc_filter p (mostCommon rest) k (mostCommon_sorted rest)]
      rw [List.filter_cons, List.filter_cons, ih]

/-! ## Lemmas about the host → node map -/

theorem getLast?_cons_or {α : Type} (a : α) (l : List α) :
    (a :: l).getLast? = l.getLast?.or (some a) := by
  cases h : l.getLast? <;> simp [List.getLast?_cons, h, Option.or]

theorem some_or {α : Type} (a : α) (o : Option α) : (some a).or o = some a := rfl

theorem extractStep_none {acc : List String × List (String × Node)} {n : Node}
    (hk : hostKey n = none) : extractStep acc n = acc := by
  simp [extractStep, hk]

theorem extractStep_some {acc : List String × List (String × Node)} {n : Node} {h : String}
    (hk : hostKey n = some h) :
    extractStep acc n = (acc.1 ++ [h], dictInsert h n acc.2) := by
  simp [extractStep, hk]

theorem lastHost_cons_none {n : Node} {rest : List Node} {h : String}
    (hk : hostKey n = none) : lastHost (n :: rest) h = lastHost rest h := by
  have hne : (hostKey n == some h) = false := by rw [hk]; rfl
  rw [lastHost, List.filter_cons, hne]
  rfl

theorem lastHost_cons_some_ne {n : Node} {rest : List Node} {h h₀ : String}
    (hk : hostKey n = some h₀) (hne : h₀ ≠ h) :
    lastHost (n :: rest) h = lastHost rest h := by
  have hb : (hostKey n == some h) = false := by
    rw [hk]
    exact beq_false_of_ne (by simpa using hne)
  rw [lastHost, List.filter_cons, hb]
  rfl

theorem lastHost_cons_some_eq {n : Node} {rest : List Node} {h : String}
    (hk : hostKey n = some h) :
    lastHost (n :: rest) h = (lastHost rest h).or (some n) := by
  have hb : (hostKey n == some h) = true := by rw [hk]; exact beq_self_eq_true _
  rw [lastHost, List.filter_cons, hb]
  simp only [if_true]
  exact getLast?_cons_or n _

theorem buildNodeMap_lookup_aux (h : String) (l : List Node) :
    ∀ acc : List String × List (String × Node),
      ((l.foldl extractStep acc).2).lookup h = (lastHost l h).or (acc.2.lookup h) := by
  induction l with
  | nil =>
      intro acc
      simp [lastHost, Option.none_or]
  | cons n rest ih =>
      intro acc
      rw [List.foldl_cons]
      cases hk : hostKey n with
      | none =>
          rw [extractStep_none hk, ih, lastHost_cons_none hk]
      | some h₀ =>
          rw [extractStep_some hk, ih]
          by_cases hh : h₀ = h
          · subst hh
            rw [lastHost_cons_some_eq hk]
            simp [dictInsert_lookup, Option.or_assoc, some_or]
          · rw [lastHost_cons_some_ne hk hh]
            simp [dictInsert_lookup, Ne.symm hh]

theorem buildNodeMap_lookup (sampled : List Node) (h : String) :
    ((buildNodeMap sampled).2).lookup h = lastHost sampled h := by
  rw [buildNodeMap, buildNodeMap_lookup_aux]
  simp [List.lookup]

theorem buildNodeMap_keys_nodup_aux (l : List Node) :
    ∀ acc : List String × List (String × Node),
      ((acc.2.map Prod.fst).Nodup) → (((l.foldl extractStep acc).2).map Prod.fst).Nodup := by
  induction l with
  | nil => intro acc hacc; simpa using hacc
  | cons n rest ih =>
      intro acc hacc
      rw [List.foldl_cons]
      cases hk : hostKey n with
      | none => rw [extractStep_none hk]; exact ih acc hacc
      | some h₀ =>
          rw [extractStep_some hk]
          exact ih _ (dictInsert_keys_nodup h₀ n acc.2 hacc)

theorem buildNodeMap_keys_nodup (sampled : List Node) :
    (((buildNodeMap sampled).2).map Prod.fst).Nodup := by
  rw [buildNodeMap]
  exact buildNodeMap_keys_nodup_aux sampled ([], []) (by simp)

theorem lastHost_mem {sampled : List Node} {h : String} {n : Node}
    (hl : lastHost sampled h = some n) : n ∈ sampled ∧ hostKey n = some h := by
  have hm : n ∈ sampled.filter (fun n => hostKey n == some h) :=
    List.mem_of_mem_getLast? (by simp [lastHost] at hl ⊢; exact hl)
  rcases List.mem_filter.1 hm with ⟨hmem, hpred⟩
  exact ⟨hmem, by simpa using hpred⟩

/-! ## Lemmas about the batch geolocation -/

theorem chunksOfAux_flatten {α : Type} (k : Nat) (hk : 0 < k) :
    ∀ (fuel : Nat) (l : List α), l.length ≤ fuel → (chunksOfAux k fuel l).flatten = l := by
  intro fuel
  induction fuel with
  | zero =>
      intro l hl
      have : l = [] := List.length_eq_zero.1 (Nat.le_zero.1 hl)
      subst this
      simp [chunksOfAux]
  | succ fuel ih =>
      intro l hl
      cases l with
      | nil => simp [chunksOfAux]
      | cons a rest =>
          have hdrop : ((a :: rest).drop k).length ≤ fuel := by
            rw [List.length_drop]
            simp only [List.length_cons] at hl ⊢
            omega
          simp only [chunksOfAux, List.flatten_cons, ih _ hdrop, List.take_append_drop]

theorem chunksOf_flatten {α : Type} (k : Nat) (hk : 0 < k) (l : List α) :
    (chunksOf k l).flatten = l :=
  chunksOfAux_flatten k hk l.length l (le_refl _)

theorem chunksOfAux_length_le {α : Type} (k : Nat) :
    ∀ (fuel : Nat) (l : List α), ∀ c ∈ chunksOfAux k fuel l, c.length ≤ k := by
  intro fuel
  induction fuel with
  | zero => intro l c hc; simp [chunksOfAux] at hc
  | succ fuel ih =>
      intro l c hc
      cases l with
      | nil => simp [chunksOfAux] at hc
      | cons a rest =>
          simp only [chunksOfAux] at hc
          rcases List.mem_cons.1 hc with rfl | hc
          · exact le_trans (le_of_eq (List.length_take k (a :: rest))) (min_le_left _ _)
          · exact ih _ c hc

theorem chunksOf_length_le {α : Type} (k : Nat) (l : List α) :
    ∀ c ∈ chunksOf k l, c.length ≤ k :=
  chunksOfAux_length_le k l.length l

theorem foldl_geoInsert_lookup_none (h : String) (items : List GeoItem) :
    ∀ res : List (String × Location),
      ((items.foldl (fun r it => dictInsert it.query (locOfItem it) r) res).lookup h = none ↔
        res.lookup h = none ∧ h ∉ items.map GeoItem.query) := by
  induction items with
  | nil => intro res; simp
  | cons it items ih =>
      intro res
      rw [List.foldl_cons, ih, dictInsert_lookup]
      by_cases hq : h = it.query
      · simp [hq]
      · simp [hq]

theorem runChunks_lookup_none (respond : Nat → Option (List GeoItem)) (h : String) :
    ∀ (chunks : List (List String)) (i : Nat) (res : List (String × Location)),
      ((runChunks respond i chunks res).lookup h = none ↔
        res.lookup h = none ∧
          ∀ j, j < chunks.length → ∀ items, respond (i + j) = some items →
            h ∉ items.map GeoItem.query) := by
  intro chunks
  induction chunks with
  | nil => intro i res; simp [runChunks]
  | cons c rest ih =>
      intro i res
      rw [runChunks, ih]
      cases hr : respond i with
      | none =>
          constructor
          · rintro ⟨h1, h2⟩
            refine ⟨h1, fun j hj items hji => ?_⟩
            cases j with
            | zero =>
                rw [Nat.add_zero, hr] at hji
                exact absurd hji (by simp)
            | succ j' =>
                have hidx : i + (j' + 1) = (i + 1) + j' := by omega
                rw [hidx] at hji
                exact h2 j' (by simp at hj; omega) items hji
          · rintro ⟨h1, h2⟩
            refine ⟨h1, fun j hj items hji => ?_⟩
            have hidx : (i + 1) + j = i + (j + 1) := by omega
            rw [hidx] at hji
            exact h2 (j + 1) (by simp; omega) items hji
      | some items₀ =>
          rw [foldl_geoInsert_lookup_none]
          constructor
          · rintro ⟨⟨h1, h0⟩, h2⟩
            refine ⟨h1, fun j hj items hji => ?_⟩
            cases j with
            | zero =>
                rw [Nat.add_zero, hr] at hji
                have : items = items₀ := by
                  injection hji.symm
                subst this
                exact h0
            | succ j' =>
                have hidx : i + (j' + 1) = (i + 1) + j' := by omega
                rw [hidx] at hji
                exact h2 j' (by simp at hj; omega) items hji
          · rintro ⟨h1, h2⟩
            refine ⟨⟨h1, ?_⟩, fun j hj items hji => ?_⟩
            · exact h2 0 (by simp) items₀ (by rw [Nat.add_zero, hr])
            · have hidx : (i + 1) + j = i + (j + 1) := by omega
              rw [hidx] at hji
              exact h2 (j + 1) (by simp; omega) items hji

theorem get_ip_country_batch_lookup_none (respond : Nat → Option (List GeoItem))
    (ips : List String) (h : String) :
    ((get_ip_country_batch respond ips).lookup h = none ↔
      ∀ j, j < (chunksOf 100 ips).length → ∀ items, respond j = some items →
        h ∉ items.map GeoItem.query) := by
  rw [get_ip_country_batch, runChunks_lookup_none]
  simp [List.lookup]

theorem lookupD_of_lookup_none {β : Type} {d : List (String × β)} {k : String} {v : β}
    (h : d.lookup k = none) : lookupD d k v = v := by
  rw [lookupD, h]
  rfl

/-! ## Claim theorems -/

/-- C1: for every sampled peer, its `is_sanctioned` flag is true iff its
resolved country code is exactly a member of the fixed 8-element set
{IR, KP, CU, SY, RU, BY, VE, MM} (exact membership of a duplicate-free
8-element list), and a peer whose country resolves to the unknown sentinel
("XX" for an unresolved host, "Unknown" for a reply without a country code)
is never flagged as sanctioned. -/
theorem C1_sanctioned_iff (ts : String) (nm : List (String × Node))
    (geo : List (String × Location)) (row : ScanRow)
    (hrow : row ∈ (processData ts nm geo).processed) :
    (row.is_ofac_sanctioned = true ↔ row.country_code ∈ OFAC_COUNTRIES) ∧
    OFAC_COUNTRIES.length = 8 ∧ OFAC_COUNTRIES.Nodup ∧
    (row.country_code = "XX" → row.is_ofac_sanctioned = false) ∧
    (row.country_code = "Unknown" → row.is_ofac_sanctioned = false) := by
  have hform : row.is_ofac_sanctioned = OFAC_COUNTRIES.contains row.country_code := by
    rw [processData_spec] at hrow
    dsimp only at hrow
    rcases List.mem_map.1 hrow with ⟨e, _, rfl⟩
    rfl
  refine ⟨?_, by decide, by decide, ?_, ?_⟩
  · rw [hform]; simp
  · intro hx; rw [hform, hx]; decide
  · intro hx; rw [hform, hx]; decide

/-- Witness for C1: the first row of the end-to-end example run. -/
theorem C1_sanctioned_iff_witness :
    ((⟨"t0", some "pk1", "1.1.1.1", some "1.18.0", "US", "United States",
        false⟩ : ScanRow).is_ofac_sanctioned = true ↔
      (⟨"t0", some "pk1", "1.1.1.1", some "1.18.0", "US", "United States",
        false⟩ : ScanRow).country_code ∈ OFAC_COUNTRIES) ∧
    OFAC_COUNTRIES.length = 8 ∧ OFAC_COUNTRIES.Nodup ∧
    ((⟨"t0", some "pk1", "1.1.1.1", some "1.18.0", "US", "United States",
        false⟩ : ScanRow).country_code = "XX" →
      (⟨"t0", some "pk1", "1.1.1.1", some "1.18.0", "US", "United States",
        false⟩ : ScanRow).is_ofac_sanctioned = false) ∧
    ((⟨"t0", some "pk1", "1.1.1.1", some "1.18.0", "US", "United States",
        false⟩ : ScanRow).country_code = "Unknown" →
      (⟨"t0", some "pk1", "1.1.1.1", some "1.18.0", "US", "United States",
        false⟩ : ScanRow).is_ofac_sanctioned = false) :=
  C1_sanctioned_iff "t0" exampleBm.2 exampleGeo _ (by decide)

/-- C2: for every directory response, the sampled set contains only peers
whose gossip address is truthy (present and non-empty); with N the size of
the filtered set, the sampled set has exactly N members when N ≤ 150 and
exactly 150 members when N > 150, each drawn from the filtered set with no
repeats (element counts never exceed those of the filtered set). -/
theorem C2_sampler (nodes choice : List Node)
    (hchoice : SAMPLE_SIZE < (validNodes nodes).length →
      sampleSpec (validNodes nodes) SAMPLE_SIZE choice) :
    (∀ n ∈ sampledNodes (validNodes nodes) choice, gossipTruthy n = true) ∧
    (sampledNodes (validNodes nodes) choice).length =
      (if (validNodes nodes).length ≤ SAMPLE_SIZE then (validNodes nodes).length
       else SAMPLE_SIZE) ∧
    (∀ n : Node, (sampledNodes (validNodes nodes) choice).count n ≤
      (validNodes nodes).count n) := by
  by_cases hlen : SAMPLE_SIZE < (validNodes nodes).length
  · obtain ⟨hl, hsub⟩ := hchoice hlen
    rw [sampledNodes, if_pos hlen]
    refine ⟨?_, ?_, ?_⟩
    · intro n hn
      exact (List.mem_filter.1 (hsub.subset hn)).2
    · rw [hl, if_neg (by omega)]
    · intro n
      exact hsub.count_le n
  · rw [sampledNodes, if_neg hlen]
    refine ⟨?_, ?_, ?_⟩
    · intro n hn
      exact (List.mem_filter.1 hn).2
    · rw [if_pos (by omega)]
    · intro n
      exact le_refl _

/-- Witness for C2: the three-peer example directory, where the filtered set
has 3 ≤ 150 members and the random draw is unused. -/
theorem C2_sampler_witness :
    (∀ n ∈ sampledNodes (validNodes exampleNodes) [], gossipTruthy n = true) ∧
    (sampledNodes (validNodes exampleNodes) []).length =
      (if (validNodes exampleNodes).length ≤ SAMPLE_SIZE
       then (validNodes exampleNodes).length else SAMPLE_SIZE) ∧
    (∀ n : Node, (sampledNodes (validNodes exampleNodes) []).count n ≤
      (validNodes exampleNodes).count n) :=
  C2_sampler exampleNodes [] (fun hlt => absurd hlt (by decide))

/-- C3: the working set maps each distinct extracted host to at most one
sampled peer (its key list is duplicate-free); the entry stored under a host
is exactly the last sampled peer with that host in iteration order, and every
stored entry is a sampled peer carrying that host. -/
theorem C3_last_write_wins (sampled : List Node) :
    (((buildNodeMap sampled).2).map Prod.fst).Nodup ∧
    (∀ h : String, ((buildNodeMap sampled).2).lookup h = lastHost sampled h) ∧
    (∀ (h : String) (n : Node), ((buildNodeMap sampled).2).lookup h = some n →
      n ∈ sampled ∧ hostKey n = some h) := by
  refine ⟨buildNodeMap_keys_nodup sampled, fun h => buildNodeMap_lookup sampled h, ?_⟩
  intro h n hl
  exact lastHost_mem ((buildNodeMap_lookup sampled h).symm.trans hl)

/-- C5: the directory fetch issues a single remote call; on any failure it
returns the empty sequence rather than raising (as it does on a body without
a `result` key), a successful body's `result` array is returned unchanged,
and a failure is indistinguishable from an empty cluster. -/
theorem C5_fetch_failure_empty :
    get_gossip_nodes .failure = [] ∧
    get_gossip_nodes (.success none) = [] ∧
    (∀ r : List Node, get_gossip_nodes (.success (some r)) = r) ∧
    get_gossip_nodes .failure = get_gossip_nodes (.success (some [])) :=
  ⟨rfl, rfl, fun _ => rfl, rfl⟩

/-- C6: when the run produces zero ScanRows the non-compliance percentage is
exactly 0, because the guard `total_fetched > 0` fails and the division is
never evaluated (the guard's strict-positivity test is false). -/
theorem C6_zero_rows_pct_zero (ts : String) (nm : List (String × Node))
    (geo : List (String × Location))
    (h : (processData ts nm geo).processed = []) :
    non_compliance_pct (processData ts nm geo).sanctioned
      (processData ts nm geo).processed.length = 0 ∧
    ¬ 0 < (processData ts nm geo).processed.length := by
  rw [h]
  simp [non_compliance_pct]

/-- Witness for C6: an empty node map produces zero rows. -/
theorem C6_zero_rows_pct_zero_witness :
    non_compliance_pct (processData "t0" [] []).sanctioned
      (processData "t0" [] []).processed.length = 0 ∧
    ¬ 0 < (processData "t0" [] []).processed.length :=
  C6_zero_rows_pct_zero "t0" [] [] rfl

/-- C4: the geolocation resolver partitions the host list into chunks of at
most 100 (the chunks concatenate back to the host list), one request outcome
per chunk; a host is absent from the result exactly when no successful
chunk's reply mentions it (so a chunk failure omits entries without aborting
the remaining chunks and without retrying); under distinct hosts and replies
that answer only their own chunk's queries, every host of a failed chunk is
absent from the result and is defaulted by the caller to the unknown
sentinel. -/
theorem C4_batch_resolution (respond : Nat → Option (List GeoItem)) (ips : List String)
    (hnd : ips.Nodup)
    (hresp : ∀ i, ∀ (hi : i < (chunksOf 100 ips).length), ∀ items : List GeoItem,
      respond i = some items → ∀ it ∈ items, it.query ∈ (chunksOf 100 ips)[i]) :
    ((chunksOf 100 ips).flatten = ips) ∧
    (∀ c ∈ chunksOf 100 ips, c.length ≤ 100) ∧
    (∀ h : String, ((get_ip_country_batch respond ips).lookup h = none ↔
      ∀ j, j < (chunksOf 100 ips).length → ∀ items, respond j = some items →
        h ∉ items.map GeoItem.query)) ∧
    (∀ i, ∀ (hi : i < (chunksOf 100 ips).length), respond i = none →
      ∀ h ∈ (chunksOf 100 ips)[i],
        (get_ip_country_batch respond ips).lookup h = none ∧
        lookupD (get_ip_country_batch respond ips) h unknownLocation = unknownLocation) := by
  have hflat : (chunksOf 100 ips).flatten = ips := chunksOf_flatten 100 (by decide) ips
  refine ⟨hflat, chunksOf_length_le 100 ips,
    fun h => get_ip_country_batch_lookup_none respond ips h, ?_⟩
  intro i hi hri h hmem
  have hnone : (get_ip_country_batch respond ips).lookup h = none := by
    rw [get_ip_country_batch_lookup_none]
    intro j hj items hjs hmem2
    rcases List.mem_map.1 hmem2 with ⟨it, hit, rfl⟩
    have hq : it.query ∈ (chunksOf 100 ips)[j] := hresp j hj items hjs it hit
    have hne : j ≠ i := by
      intro e
      rw [e, hri] at hjs
      exact absurd hjs (by simp)
    have hpd : List.Pairwise List.Disjoint (chunksOf 100 ips) := by
      have hnodup : ((chunksOf 100 ips).flatten).Nodup := by
        rw [hflat]; exact hnd
      exact (List.nodup_flatten.1 hnodup).2
    have hdisj := List.pairwise_iff_getElem.1 hpd
    rcases Nat.lt_or_ge j i with hji | hij
    · exact (hdisj j i hj hi hji) hq hmem
    · exact (hdisj i j hi hj (lt_of_le_of_ne hij (Ne.symm hne))) hmem hq
  exact ⟨hnone, lookupD_of_lookup_none hnone⟩

/-- The request outcome where every chunk fails. -/
def failRespond : Nat → Option (List GeoItem) := fun _ => none

/-- A two-host input for the C4 witness. -/
def twoIps : List String := ["1.1.1.1", "2.2.2.2"]

/-- Witness for C4: two distinct hosts, a single chunk whose request fails;
both hosts are absent from the result and default to the sentinel. -/
theorem C4_batch_resolution_witness :
    ((chunksOf 100 twoIps).flatten = twoIps) ∧
    (∀ c ∈ chunksOf 100 twoIps, c.length ≤ 100) ∧
    (∀ h : String, ((get_ip_country_batch failRespond twoIps).lookup h = none ↔
      ∀ j, j < (chunksOf 100 twoIps).length → ∀ items, failRespond j = some items →
        h ∉ items.map GeoItem.query)) ∧
    (∀ i, ∀ (hi : i < (chunksOf 100 twoIps).length), failRespond i = none →
      ∀ h ∈ (chunksOf 100 twoIps)[i],
        (get_ip_country_batch failRespond twoIps).lookup h = none ∧
        lookupD (get_ip_country_batch failRespond twoIps) h unknownLocation =
          unknownLocation) :=
  C4_batch_resolution failRespond twoIps (by decide)
    (fun i hi items hsome => absurd hsome (by simp [failRespond]))

/-- C7: the report writer opens the CSV log in append mode — prior content is
kept as a prefix and never rewritten; the fixed 7-column header is written
only when the file did not previously exist; each ScanRow yields one 7-field
row; after two successive runs starting from no file, the log is the header
followed by both runs' rows, its length is 1 + both runs' row counts, and the
header occurs exactly once. -/
theorem C7_append_log (prior : List (List String)) (rows rows₁ rows₂ : List ScanRow) :
    writeCsv (some prior) rows = prior ++ rows.map toCsvRow ∧
    writeCsv none rows = csvHeader :: rows.map toCsvRow ∧
    (∀ r : ScanRow, (toCsvRow r).length = 7) ∧
    writeCsv (some (writeCsv none rows₁)) rows₂ =
      csvHeader :: (rows₁.map toCsvRow ++ rows₂.map toCsvRow) ∧
    (writeCsv (some (writeCsv none rows₁)) rows₂).length =
      1 + rows₁.length + rows₂.length ∧
    (writeCsv (some (writeCsv none rows₁)) rows₂).count csvHeader = 1 := by
  have hne : ∀ r : ScanRow, toCsvRow r ≠ csvHeader := by
    intro r hr
    rw [toCsvRow, csvHeader] at hr
    simp only [List.cons.injEq, and_true] at hr
    have h7 : boolStr r.is_ofac_sanctioned = "is_ofac_sanctioned" := hr.2.2.2.2.2.2
    cases hb : r.is_ofac_sanctioned <;> rw [hb] at h7 <;> exact absurd h7 (by decide)
  have htwo : writeCsv (some (writeCsv none rows₁)) rows₂ =
      csvHeader :: (rows₁.map toCsvRow ++ rows₂.map toCsvRow) := by
    simp [writeCsv]
  refine ⟨by simp [writeCsv], by simp [writeCsv], fun r => rfl, htwo, ?_, ?_⟩
  · rw [htwo]
    simp
    omega
  · rw [htwo, List.count_cons_self]
    have hz : (rows₁.map toCsvRow ++ rows₂.map toCsvRow).count csvHeader = 0 := by
      rw [List.count_eq_zero]
      intro hmem
      rcases List.mem_append.1 hmem with hm | hm <;>
        rcases List.mem_map.1 hm with ⟨r, _, hr⟩ <;>
          exact hne r hr
    rw [hz]

/-- C8: the full-country-breakdown lists every country code observed in the
run exactly once with its tally count (the sorted list is a permutation of
the duplicate-free tally, whose lookup returns the occurrence count of each
observed code and nothing for unobserved ones), ordered by descending count,
with ties broken by first-encounter order during tallying (the sort is stable:
entries with equal counts appear exactly as in the tally, whose key order is
the first-occurrence order of the codes). -/
theorem C8_breakdown (ts : String) (nm : List (String × Node))
    (geo : List (String × Location)) :
    (mostCommon (processData ts nm geo).counter).Perm (processData ts nm geo).counter ∧
    (((processData ts nm geo).counter).map Prod.fst).Nodup ∧
    (∀ c : String,
      ((processData ts nm geo).counter).lookup c =
        if c ∈ (processData ts nm geo).processed.map ScanRow.country_code
        then some (((processData ts nm geo).processed.map ScanRow.country_code).count c)
        else none) ∧
    (mostCommon (processData ts nm geo).counter).Pairwise (fun a b => b.2 ≤ a.2) ∧
    (∀ k : Nat, (mostCommon (processData ts nm geo).counter).filter (fun p => p.2 == k) =
      ((processData ts nm geo).counter).filter (fun p => p.2 == k)) ∧
    ((processData ts nm geo).counter).map Prod.fst =
      firstOccurrences ((processData ts nm geo).processed.map ScanRow.country_code) := by
  rw [processData_spec]
  dsimp only
  have hcodes : (nm.map (rowOf ts geo)).map ScanRow.country_code = nm.map (codeOf geo) := by
    rw [List.map_map]
    rfl
  rw [hcodes]
  refine ⟨mostCommon_perm _, tallyFrom_keys_nodup _ [] (by simp), ?_,
    mostCommon_sorted _, fun k => mostCommon_filter _ k, ?_⟩
  · intro c
    rw [tallyFrom_lookup]
    simp only [List.lookup, Option.isSome_none, Bool.false_eq_true, or_false,
      Option.getD_none, Nat.zero_add]
  · rw [tallyFrom_keys]
    rfl

/-- C9: on the three-peer example (hosts 1.1.1.1, 2.2.2.2, 3.3.3.3 resolving
to US, RU and a reply without a country code), the classifier produces 3
ScanRows, the tally {US: 1, RU: 1, Unknown: 1}, sanctioned count 1, and a
non-compliance percentage that rounds to 33.33. -/
theorem C9_end_to_end :
    exampleRun.processed.length = 3 ∧
    exampleRun.counter = [("US", 1), ("RU", 1), ("Unknown", 1)] ∧
    exampleRun.sanctioned = 1 ∧
    round2 (non_compliance_pct exampleRun.sanctioned exampleRun.processed.length) =
      3333 / 100 := by
  refine ⟨by decide, by decide, by decide, ?_⟩
  have hs : exampleRun.sanctioned = 1 := by decide
  have hl : exampleRun.processed.length = 3 := by decide
  rw [hs, hl]
  have hp : non_compliance_pct 1 3 = 100 / 3 := by
    norm_num [non_compliance_pct]
  rw [round2, hp]
  have h2 : ((100 : Rat) / 3 * 100 + 1 / 2) = 20003 / 6 := by norm_num
  rw [h2]
  have h3 : (⌊(20003 / 6 : Rat)⌋ : Int) = 3333 := by
    rw [Int.floor_eq_iff]
    norm_num
  rw [h3]
  norm_num

/-- C10: the sum of all tally counts equals the number of ScanRows (each row
increments exactly one country's tally, the sentinel included), so the
summary's `Other` figure, total rows minus the tally sum, is always 0. -/
theorem C10_tally_total (ts : String) (nm : List (String × Node))
    (geo : List (String × Location)) :
    (((processData ts nm geo).counter).map Prod.snd).sum =
      (processData ts nm geo).processed.length ∧
    otherLine (processData ts nm geo).processed.length
      (processData ts nm geo).counter = 0 := by
  rw [processData_spec]
  dsimp only
  have hs : ((tallyFrom [] (nm.map (codeOf geo))).map Prod.snd).sum =
      (nm.map (codeOf geo)).length := by
    rw [tallyFrom_sum]
    simp
  refine ⟨by rw [hs]; simp, ?_⟩
  rw [otherLine, hs]
  simp

end GossipCheck
